import Mathlib

/-
Verification of the aspen-renderer frame-orchestration core.

The Rust sources are shallowly embedded: pure control flow becomes Lean
functions, stateful objects become explicit state passing, and panics become
the `none` branch of an `Option` result. Machine integers that the claims
touch (extents, indices) never approach overflow, so they are modelled as
`Nat`.
-/

namespace Aspen

/-- Halt policy crossing pipeline-stage boundaries
(src/src/renderpass/mod.rs, `enum HaltPolicy`). -/
inductive HaltPolicy
  | HaltThis
  | HaltAll
  deriving DecidableEq, Repr

/-- Result of a fallible stage phase: Rust `Result<T, HaltPolicy>` with the
payload abstracted to `Unit` for the sequencing claims. -/
abbrev PhaseRes := Except HaltPolicy Unit

/-- Tests whether a phase result is `Ok` (the `Ok(_) => ()` arm of the match
in `DefaultRenderSystem::run`). -/
def resOk : PhaseRes → Bool
  | .ok _ => true
  | .error _ => false

/-- Per-frame behaviour of one boxed `RenderPassCont` trait object as observed
by `DefaultRenderSystem::run`: what its `preprocess` and `build_commands`
calls return this frame (`postprocess` cannot fail). -/
structure StageBeh where
  preRes : PhaseRes
  buildRes : PhaseRes
  deriving Repr

/-- Invocation events emitted by one frame run of `DefaultRenderSystem::run`
(src/src/render_system/mod.rs): the submit system's `setup`, each stage's
three phases (tagged with the stage's position in the declared list), and the
submit system's `submit`. -/
inductive Event
  | setupEv
  | preEv (i : Nat)
  | buildEv (i : Nat)
  | postEv (i : Nat)
  | submitEv
  deriving DecidableEq, Repr

/-- The list of events `f i, f (i+1), ..., f (i+n-1)`: one full or partial
phase sweep over consecutively indexed stages. -/
def phaseList (f : Nat → Event) (i n : Nat) : List Event :=
  match n with
  | 0 => []
  | n + 1 => f i :: phaseList f (i + 1) n

/-- First loop of `DefaultRenderSystem::run`: invoke `preprocess` on each
stage in declared order, returning early on the first `Halt`. Yields the
invocation events and whether every call succeeded. -/
def preSweep : List StageBeh → Nat → List Event × Bool
  | [], _ => ([], true)
  | p :: rest, i =>
    match p.preRes with
    | .ok _ =>
      let r := preSweep rest (i + 1)
      (Event.preEv i :: r.1, r.2)
    | .error _ => ([Event.preEv i], false)

/-- Result of the `build_commands` loop: the invocation events, the commands
accumulated in the shared recorder (one abstract command per successful stage,
identified by the stage index), and whether every call succeeded. -/
structure BuildSweepOut where
  events : List Event
  cmds : List Nat
  ok : Bool
  deriving DecidableEq, Repr

/-- Second loop of `DefaultRenderSystem::run`: invoke `build_commands` on each
stage in declared order, threading the exclusive recorder, returning early on
the first `Halt`. -/
def buildSweep : List StageBeh → Nat → BuildSweepOut
  | [], _ => ⟨[], [], true⟩
  | p :: rest, i =>
    match p.buildRes with
    | .ok _ =>
      let r := buildSweep rest (i + 1)
      ⟨Event.buildEv i :: r.events, i :: r.cmds, r.ok⟩
    | .error _ => ⟨[Event.buildEv i], [], false⟩

/-- Third loop of `DefaultRenderSystem::run`: `postprocess` on every stage in
declared order; it is unconditional and cannot fail. -/
def postSweep (passes : List StageBeh) : List Event :=
  phaseList Event.postEv 0 passes.length

/-- One frame run of `DefaultRenderSystem::run`
(src/src/render_system/mod.rs lines 29-54), given the submit system's `setup`
outcome and the per-stage behaviours. Returns the trace of invocation events
and the recorder contents handed to `submit` (`some cmds`), or `none` when
the frame aborted before step 5 and the partially-recorded commands were
dropped with the recorder. -/
def run (setupRes : PhaseRes) (passes : List StageBeh) :
    List Event × Option (List Nat) :=
  match setupRes with
  | .error _ => ([Event.setupEv], none)
  | .ok _ =>
    let pre := preSweep passes 0
    if pre.2 then
      let b := buildSweep passes 0
      if b.ok then
        ((Event.setupEv :: pre.1) ++ b.events ++ postSweep passes ++ [Event.submitEv],
          some b.cmds)
      else ((Event.setupEv :: pre.1) ++ b.events, none)
    else (Event.setupEv :: pre.1, none)

/-- Event trace of one frame run. -/
def runTrace (setupRes : PhaseRes) (passes : List StageBeh) : List Event :=
  (run setupRes passes).1

/-- Commands submitted at the end of one frame run, if any. -/
def runSubmitted (setupRes : PhaseRes) (passes : List StageBeh) :
    Option (List Nat) :=
  (run setupRes passes).2

/-- Phase rank of an event: setup, preprocess, build, postprocess, submit. -/
def phaseOf : Event → Nat
  | .setupEv => 0
  | .preEv _ => 1
  | .buildEv _ => 2
  | .postEv _ => 3
  | .submitEv => 4

/-- Stage index of an event (0 for the setup and submit brackets). -/
def idxOf : Event → Nat
  | .setupEv => 0
  | .preEv i => i
  | .buildEv i => i
  | .postEv i => i
  | .submitEv => 0

/-- Strict execution order on events: an earlier phase, or the same phase at
an earlier declared stage position. -/
def evBefore (a b : Event) : Prop :=
  phaseOf a < phaseOf b ∨ (phaseOf a = phaseOf b ∧ idxOf a < idxOf b)

instance (a b : Event) : Decidable (evBefore a b) := by
  unfold evBefore; infer_instance

theorem phaseList_mem {f : Nat → Event} {e : Event} :
    ∀ {i n : Nat}, e ∈ phaseList f i n → ∃ k, k < n ∧ e = f (i + k) := by
  intro i n
  induction n generalizing i with
  | zero => intro h; simp [phaseList] at h
  | succ n ih =>
    intro h
    rw [phaseList] at h
    rcases List.mem_cons.mp h with h | h
    · exact ⟨0, Nat.succ_pos n, by simpa using h⟩
    · rcases ih h with ⟨k, hk, he⟩
      refine ⟨k + 1, Nat.succ_lt_succ hk, ?_⟩
      rw [he]; congr 1; omega

theorem mem_phaseList {f : Nat → Event} :
    ∀ {i n k : Nat}, k < n → f (i + k) ∈ phaseList f i n := by
  intro i n
  induction n generalizing i with
  | zero => intro k h; omega
  | succ n ih =>
    intro k h
    rw [phaseList]
    match k with
    | 0 => exact List.mem_cons_self _ _
    | k + 1 =>
      have : f (i + 1 + k) ∈ phaseList f (i + 1) n := ih (by omega)
      exact List.mem_cons_of_mem _ (by have h2 : i + 1 + k = i + (k + 1) := by omega
                                       rw [h2] at this; exact this)

theorem phaseList_pairwise {f : Nat → Event}
    (hf : ∀ a b : Nat, a < b → evBefore (f a) (f b)) :
    ∀ i n, List.Pairwise evBefore (phaseList f i n) := by
  intro i n
  induction n generalizing i with
  | zero => exact List.Pairwise.nil
  | succ n ih =>
    rw [phaseList]
    refine List.pairwise_cons.mpr ⟨?_, ih (i + 1)⟩
    intro e he
    rcases phaseList_mem he with ⟨k, _, rfl⟩
    exact hf i (i + 1 + k) (by omega)

theorem preSweep_shape : ∀ (l : List StageBeh) (i : Nat),
    ∃ m, m ≤ l.length ∧ (preSweep l i).1 = phaseList Event.preEv i m ∧
      ((preSweep l i).2 = true → m = l.length) := by
  intro l
  induction l with
  | nil =>
    intro i
    exact ⟨0, Nat.le_refl 0, rfl, fun _ => rfl⟩
  | cons p rest ih =>
    intro i
    rcases ih (i + 1) with ⟨m, hm, he, hok⟩
    cases hp : p.preRes with
    | ok u =>
      refine ⟨m + 1, by simpa using hm, ?_, ?_⟩
      · simp only [preSweep, hp, phaseList]
        rw [he]
      · intro hall
        simp only [preSweep, hp] at hall
        simp [hok hall]
    | error e =>
      refine ⟨1, by simp, ?_, ?_⟩
      · simp [preSweep, hp, phaseList]
      · intro hall
        simp [preSweep, hp] at hall

theorem preSweep_ok_iff : ∀ (l : List StageBeh) (i : Nat),
    (preSweep l i).2 = true ↔ ∀ p ∈ l, resOk p.preRes = true := by
  intro l
  induction l with
  | nil => intro i; simp [preSweep]
  | cons p rest ih =>
    intro i
    cases hp : p.preRes with
    | ok u => simp [preSweep, hp, ih (i + 1), resOk]
    | error e => simp [preSweep, hp, resOk, hp]

theorem buildSweep_shape : ∀ (l : List StageBeh) (i : Nat),
    ∃ m, m ≤ l.length ∧ (buildSweep l i).events = phaseList Event.buildEv i m ∧
      ((buildSweep l i).ok = true → m = l.length) := by
  intro l
  induction l with
  | nil =>
    intro i
    exact ⟨0, Nat.le_refl 0, rfl, fun _ => rfl⟩
  | cons p rest ih =>
    intro i
    rcases ih (i + 1) with ⟨m, hm, he, hok⟩
    cases hp : p.buildRes with
    | ok u =>
      refine ⟨m + 1, by simpa using hm, ?_, ?_⟩
      · simp only [buildSweep, hp, phaseList]
        rw [he]
      · intro hall
        simp only [buildSweep, hp] at hall
        simp [hok hall]
    | error e =>
      refine ⟨1, by simp, ?_, ?_⟩
      · simp [buildSweep, hp, phaseList]
      · intro hall
        simp [buildSweep, hp] at hall

theorem buildSweep_ok_iff : ∀ (l : List StageBeh) (i : Nat),
    (buildSweep l i).ok = true ↔ ∀ p ∈ l, resOk p.buildRes = true := by
  intro l
  induction l with
  | nil => intro i; simp [buildSweep]
  | cons p rest ih =>
    intro i
    cases hp : p.buildRes with
    | ok u => simp [buildSweep, hp, ih (i + 1), resOk]
    | error e => simp [buildSweep, hp, resOk]

theorem postSweep_eq (passes : List StageBeh) :
    postSweep passes = phaseList Event.postEv 0 passes.length := rfl

theorem phaseList_preEv_phase {i n : Nat} {e : Event}
    (h : e ∈ phaseList Event.preEv i n) : phaseOf e = 1 := by
  rcases phaseList_mem h with ⟨k, _, rfl⟩; rfl

theorem phaseList_buildEv_phase {i n : Nat} {e : Event}
    (h : e ∈ phaseList Event.buildEv i n) : phaseOf e = 2 := by
  rcases phaseList_mem h with ⟨k, _, rfl⟩; rfl

theorem phaseList_postEv_phase {i n : Nat} {e : Event}
    (h : e ∈ phaseList Event.postEv i n) : phaseOf e = 3 := by
  rcases phaseList_mem h with ⟨k, _, rfl⟩; rfl

theorem pairwise_preEv (i n : Nat) :
    List.Pairwise evBefore (phaseList Event.preEv i n) :=
  phaseList_pairwise (fun a b h => by simp [evBefore, phaseOf, idxOf, h]) i n

theorem pairwise_buildEv (i n : Nat) :
    List.Pairwise evBefore (phaseList Event.buildEv i n) :=
  phaseList_pairwise (fun a b h => by simp [evBefore, phaseOf, idxOf, h]) i n

theorem pairwise_postEv (i n : Nat) :
    List.Pairwise evBefore (phaseList Event.postEv i n) :=
  phaseList_pairwise (fun a b h => by simp [evBefore, phaseOf, idxOf, h]) i n

theorem run_ok_eq (passes : List StageBeh) :
    run (Except.ok ()) passes =
      if (preSweep passes 0).2 then
        if (buildSweep passes 0).ok then
          ((Event.setupEv :: (preSweep passes 0).1) ++ ((buildSweep passes 0).events ++
            (postSweep passes ++ [Event.submitEv])), some (buildSweep passes 0).cmds)
        else ((Event.setupEv :: (preSweep passes 0).1) ++ (buildSweep passes 0).events, none)
      else (Event.setupEv :: (preSweep passes 0).1, none) := by
  simp only [run, List.append_assoc]

theorem pairwise_full_trace (n : Nat) :
    List.Pairwise evBefore (Event.setupEv ::
      (phaseList Event.preEv 0 n ++ (phaseList Event.buildEv 0 n ++
        (phaseList Event.postEv 0 n ++ [Event.submitEv])))) := by
  refine List.pairwise_cons.mpr ⟨?_, ?_⟩
  · intro e he
    refine Or.inl ?_
    rcases List.mem_append.mp he with h | h
    · rw [phaseList_preEv_phase h]; simp [phaseOf]
    · rcases List.mem_append.mp h with h | h
      · rw [phaseList_buildEv_phase h]; simp [phaseOf]
      · rcases List.mem_append.mp h with h | h
        · rw [phaseList_postEv_phase h]; simp [phaseOf]
        · simp only [List.mem_singleton] at h; subst h; simp [phaseOf]
  · refine List.pairwise_append.mpr ⟨pairwise_preEv 0 n, ?_, ?_⟩
    · refine List.pairwise_append.mpr ⟨pairwise_buildEv 0 n, ?_, ?_⟩
      · refine List.pairwise_append.mpr ⟨pairwise_postEv 0 n, ?_, ?_⟩
        · simp
        · intro a ha b hb
          simp only [List.mem_singleton] at hb; subst hb
          exact Or.inl (by rw [phaseList_postEv_phase ha]; simp [phaseOf])
      · intro a ha b hb
        refine Or.inl ?_
        rw [phaseList_buildEv_phase ha]
        rcases List.mem_append.mp hb with h | h
        · rw [phaseList_postEv_phase h]; simp
        · simp only [List.mem_singleton] at h; subst h; simp [phaseOf]
    · intro a ha b hb
      refine Or.inl ?_
      rw [phaseList_preEv_phase ha]
      rcases List.mem_append.mp hb with h | h
      · rw [phaseList_buildEv_phase h]; simp
      · rcases List.mem_append.mp h with h | h
        · rw [phaseList_postEv_phase h]; simp
        · simp only [List.mem_singleton] at h; subst h; simp [phaseOf]

/-- C1: within one frame of `DefaultRenderSystem::run` with a successful
submit-system setup and any ordered stage list, the trace is strictly ordered
by phase then by declared stage position (a full preprocess sweep, then a
full build sweep, then a full postprocess sweep, then submit): every stage's
preprocess precedes any build_commands, every build_commands precedes any
postprocess, submit comes only after all postprocess calls, and whenever a
later phase is reached the earlier phase has run for every declared stage. -/
theorem run_phase_sweeps (passes : List StageBeh) :
    List.Pairwise evBefore (runTrace (Except.ok ()) passes) ∧
    (∀ i j, Event.buildEv j ∈ runTrace (Except.ok ()) passes →
      i < passes.length → Event.preEv i ∈ runTrace (Except.ok ()) passes) ∧
    (∀ i j, Event.postEv j ∈ runTrace (Except.ok ()) passes →
      i < passes.length → Event.buildEv i ∈ runTrace (Except.ok ()) passes) ∧
    (Event.submitEv ∈ runTrace (Except.ok ()) passes →
      ∀ i, i < passes.length → Event.postEv i ∈ runTrace (Except.ok ()) passes) := by
  obtain ⟨mp, hmp, hep, hcp⟩ := preSweep_shape passes 0
  obtain ⟨mb, hmb, heb, hcb⟩ := buildSweep_shape passes 0
  by_cases hpre : (preSweep passes 0).2 = true
  · by_cases hb : (buildSweep passes 0).ok = true
    · have htr : runTrace (Except.ok ()) passes = Event.setupEv ::
          (phaseList Event.preEv 0 passes.length ++ (phaseList Event.buildEv 0 passes.length ++
            (phaseList Event.postEv 0 passes.length ++ [Event.submitEv]))) := by
        simp only [runTrace, run_ok_eq, if_pos hpre, if_pos hb, postSweep_eq]
        rw [hep, heb, hcp hpre, hcb hb]
        simp [List.cons_append]
      rw [htr]
      refine ⟨pairwise_full_trace passes.length, ?_, ?_, ?_⟩
      · intro i j _ hi
        exact List.mem_cons_of_mem _ (List.mem_append_left _
          (by simpa using mem_phaseList (f := Event.preEv) (i := 0) hi))
      · intro i j _ hi
        exact List.mem_cons_of_mem _ (List.mem_append_right _ (List.mem_append_left _
          (by simpa using mem_phaseList (f := Event.buildEv) (i := 0) hi)))
      · intro _ i hi
        exact List.mem_cons_of_mem _ (List.mem_append_right _ (List.mem_append_right _
          (List.mem_append_left _
            (by simpa using mem_phaseList (f := Event.postEv) (i := 0) hi))))
    · have htr : runTrace (Except.ok ()) passes = Event.setupEv ::
          (phaseList Event.preEv 0 passes.length ++ phaseList Event.buildEv 0 mb) := by
        simp only [runTrace, run_ok_eq, if_pos hpre, if_neg hb]
        rw [hep, heb, hcp hpre]
        simp [List.cons_append]
      rw [htr]
      refine ⟨?_, ?_, ?_, ?_⟩
      · refine List.pairwise_cons.mpr ⟨?_, ?_⟩
        · intro e he
          refine Or.inl ?_
          rcases List.mem_append.mp he with h | h
          · rw [phaseList_preEv_phase h]; simp [phaseOf]
          · rw [phaseList_buildEv_phase h]; simp [phaseOf]
        · refine List.pairwise_append.mpr
            ⟨pairwise_preEv 0 passes.length, pairwise_buildEv 0 mb, ?_⟩
          intro a ha b hb2
          exact Or.inl (by rw [phaseList_preEv_phase ha, phaseList_buildEv_phase hb2]; simp)
      · intro i j _ hi
        exact List.mem_cons_of_mem _ (List.mem_append_left _
          (by simpa using mem_phaseList (f := Event.preEv) (i := 0) hi))
      · intro i j hmem _
        exfalso
        rcases List.mem_cons.mp hmem with h | h
        · exact Event.noConfusion h
        rcases List.mem_append.mp h with h | h
        · have := phaseList_preEv_phase h; simp [phaseOf] at this
        · have := phaseList_buildEv_phase h; simp [phaseOf] at this
      · intro hmem
        exfalso
        rcases List.mem_cons.mp hmem with h | h
        · exact Event.noConfusion h
        rcases List.mem_append.mp h with h | h
        · have := phaseList_preEv_phase h; simp [phaseOf] at this
        · have := phaseList_buildEv_phase h; simp [phaseOf] at this
  · have htr : runTrace (Except.ok ()) passes =
        Event.setupEv :: phaseList Event.preEv 0 mp := by
      simp only [runTrace, run_ok_eq, if_neg hpre]
      rw [hep]
    rw [htr]
    refine ⟨?_, ?_, ?_, ?_⟩
    · refine List.pairwise_cons.mpr ⟨?_, pairwise_preEv 0 mp⟩
      intro e he
      exact Or.inl (by rw [phaseList_preEv_phase he]; simp [phaseOf])
    · intro i j hmem _
      exfalso
      rcases List.mem_cons.mp hmem with h | h
      · exact Event.noConfusion h
      · have := phaseList_preEv_phase h; simp [phaseOf] at this
    · intro i j hmem _
      exfalso
      rcases List.mem_cons.mp hmem with h | h
      · exact Event.noConfusion h
      · have := phaseList_preEv_phase h; simp [phaseOf] at this
    · intro hmem
      exfalso
      rcases List.mem_cons.mp hmem with h | h
      · exact Event.noConfusion h
      · have := phaseList_preEv_phase h; simp [phaseOf] at this

/-- Witness for run_phase_sweeps: in a concrete two-stage all-successful
pipeline, stage 0's preprocess is invoked because stage 1's build is. -/
theorem run_phase_sweeps_witness :
    Event.preEv 0 ∈ runTrace (Except.ok ())
      [⟨Except.ok (), Except.ok ()⟩, ⟨Except.ok (), Except.ok ()⟩] :=
  (run_phase_sweeps [⟨Except.ok (), Except.ok ()⟩, ⟨Except.ok (), Except.ok ()⟩]).2.1
    0 1 (by decide) (by decide)

theorem preSweep_halt : ∀ (l1 : List StageBeh) (s : StageBeh) (l2 : List StageBeh)
    (i : Nat) (hp : HaltPolicy), (∀ p ∈ l1, resOk p.preRes = true) →
    s.preRes = Except.error hp →
    preSweep (l1 ++ s :: l2) i = (phaseList Event.preEv i (l1.length + 1), false) := by
  intro l1
  induction l1 with
  | nil =>
    intro s l2 i hp _ hs
    simp [preSweep, hs, phaseList]
  | cons p rest ih =>
    intro s l2 i hp hall hs
    have hpok : resOk p.preRes = true := hall p (List.mem_cons_self _ _)
    cases hpp : p.preRes with
    | error e => rw [hpp] at hpok; simp [resOk] at hpok
    | ok u =>
      have hrec := ih s l2 (i + 1) hp (fun q hq => hall q (List.mem_cons_of_mem _ hq)) hs
      simp only [List.cons_append, preSweep, hpp, List.append_eq, hrec, List.length_cons]
      conv_rhs => rw [phaseList]

/-- C2: Halt short-circuits a frame of `DefaultRenderSystem::run`. If the
submit system's setup halts, the run is a no-op (only setup was invoked). If
stage k's preprocess halts, preprocess was invoked exactly on stages 0..k and
no build_commands, postprocess or submit runs. If any build_commands halts,
nothing is submitted: the partially-recorded commands are discarded. -/
theorem run_halt_noop :
    (∀ (hp : HaltPolicy) (passes : List StageBeh),
      run (Except.error hp) passes = ([Event.setupEv], none)) ∧
    (∀ (l1 : List StageBeh) (s : StageBeh) (l2 : List StageBeh) (hp : HaltPolicy),
      (∀ p ∈ l1, resOk p.preRes = true) → s.preRes = Except.error hp →
      run (Except.ok ()) (l1 ++ s :: l2) =
        (Event.setupEv :: phaseList Event.preEv 0 (l1.length + 1), none)) ∧
    (∀ passes : List StageBeh, (∃ p ∈ passes, resOk p.buildRes = false) →
      runSubmitted (Except.ok ()) passes = none ∧
      Event.submitEv ∉ runTrace (Except.ok ()) passes) := by
  refine ⟨fun hp passes => rfl, ?_, ?_⟩
  · intro l1 s l2 hp hall hs
    have hps := preSweep_halt l1 s l2 0 hp hall hs
    rw [run_ok_eq, hps]
    simp
  · intro passes ⟨p, hpmem, hpfail⟩
    have hb : (buildSweep passes 0).ok = false := by
      cases hok : (buildSweep passes 0).ok with
      | false => rfl
      | true =>
        have := (buildSweep_ok_iff passes 0).mp hok p hpmem
        rw [hpfail] at this
        exact absurd this (by simp)
    obtain ⟨mp, hmp, hep, hcp⟩ := preSweep_shape passes 0
    obtain ⟨mb, hmb, heb, hcb⟩ := buildSweep_shape passes 0
    by_cases hpre : (preSweep passes 0).2 = true
    · have htr : run (Except.ok ()) passes =
          ((Event.setupEv :: (preSweep passes 0).1) ++ (buildSweep passes 0).events,
            none) := by
        rw [run_ok_eq, if_pos hpre, if_neg (by simp [hb])]
      refine ⟨by simp [runSubmitted, htr], ?_⟩
      intro hmem
      rw [runTrace, htr] at hmem
      simp only at hmem
      rcases List.mem_append.mp hmem with h | h
      · rcases List.mem_cons.mp h with h | h
        · exact Event.noConfusion h
        · rw [hep] at h
          have := phaseList_preEv_phase h; simp [phaseOf] at this
      · rw [heb] at h
        have := phaseList_buildEv_phase h; simp [phaseOf] at this
    · have htr : run (Except.ok ()) passes =
          (Event.setupEv :: (preSweep passes 0).1, none) := by
        rw [run_ok_eq, if_neg hpre]
      refine ⟨by simp [runSubmitted, htr], ?_⟩
      intro hmem
      rw [runTrace, htr] at hmem
      rcases List.mem_cons.mp hmem with h | h
      · exact Event.noConfusion h
      · rw [hep] at h
        have := phaseList_preEv_phase h; simp [phaseOf] at this

/-- Witness for run_halt_noop: a three-stage pipeline whose middle stage's
preprocess halts runs only preprocess 0 and 1, and a pipeline whose stage 1
build halts submits nothing. -/
theorem run_halt_noop_witness :
    (run (Except.ok ())
      [⟨Except.ok (), Except.ok ()⟩, ⟨Except.error HaltPolicy.HaltThis, Except.ok ()⟩,
        ⟨Except.ok (), Except.ok ()⟩] =
      (Event.setupEv :: phaseList Event.preEv 0 2, none)) ∧
    (runSubmitted (Except.ok ())
        [⟨Except.ok (), Except.ok ()⟩, ⟨Except.ok (), Except.error HaltPolicy.HaltAll⟩] =
        none ∧
      Event.submitEv ∉ runTrace (Except.ok ())
        [⟨Except.ok (), Except.ok ()⟩, ⟨Except.ok (), Except.error HaltPolicy.HaltAll⟩]) :=
  ⟨run_halt_noop.2.1 [⟨Except.ok (), Except.ok ()⟩]
      ⟨Except.error HaltPolicy.HaltThis, Except.ok ()⟩ [⟨Except.ok (), Except.ok ()⟩]
      HaltPolicy.HaltThis (by decide) rfl,
    run_halt_noop.2.2
      [⟨Except.ok (), Except.ok ()⟩, ⟨Except.ok (), Except.error HaltPolicy.HaltAll⟩]
      ⟨⟨Except.ok (), Except.error HaltPolicy.HaltAll⟩, by simp, rfl⟩⟩

/-- vulkano ImageCreateInfo restricted to what the canvas manipulates: the
extent it overrides and an abstract remainder standing for the fields copied
by the struct update in recreate_buffers_exact (src/src/canvas/mod.rs). -/
structure ImageCreateInfo where
  extent : Nat × Nat × Nat
  rest : Nat
  deriving DecidableEq, Repr

/-- An image view over a freshly allocated image, carrying the create info it
was built from. -/
structure ImageView where
  info : ImageCreateInfo
  deriving DecidableEq, Repr

/-- A framebuffer object: the render pass it was created against and its
attachment list, as built by Framebuffer::new in recreate_buffers_exact. -/
structure Framebuffer where
  renderpass : Nat
  attachments : List ImageView
  deriving DecidableEq, Repr

/-- Extent reported by the external library for a framebuffer whose extent was
derived automatically from its attachments: the first attachment's width and
height. Creating a framebuffer with an empty attachment list and automatic
extent fails the unwrap in the source, so built canvases only expose the
populated branch. -/
def Framebuffer.extent (fb : Framebuffer) : Nat × Nat :=
  match fb.attachments.head? with
  | some v => (v.info.extent.1, v.info.extent.2.1)
  | none => (0, 0)

/-- CanvasInner (src/src/canvas/mod.rs): the mutex-guarded canvas state. The
lock itself is serialization machinery and has no pure-state content. -/
structure CanvasInner where
  renderpass : Nat
  image_create_infos : List ImageCreateInfo
  num_frames_in_flight : Nat
  current_set : Nat
  image_sets : List (List ImageView)
  framebuffers : List Framebuffer
  deriving DecidableEq, Repr

/-- Canvas::empty (src/src/canvas/mod.rs lines 43-57). -/
def Canvas.empty (renderpass : Nat) (image_create_infos : List ImageCreateInfo) :
    CanvasInner where
  renderpass := renderpass
  image_create_infos := image_create_infos
  num_frames_in_flight := 0
  current_set := 0
  image_sets := []
  framebuffers := []

/-- Canvas::extent (src/src/canvas/mod.rs lines 59-65): the extent of
framebuffer 0, or [0,0] when the canvas was never built. -/
def Canvas.extent (c : CanvasInner) : Nat × Nat :=
  match c.framebuffers.head? with
  | none => (0, 0)
  | some fb => fb.extent

/-- CanvasInner::recreate_buffers_exact (src/src/canvas/mod.rs lines 173-218):
store the new frame count, drop every image set and framebuffer, then for each
frame in flight push one freshly allocated image set (every create info with
its extent overridden to exact_extent) and a matching framebuffer over it.
The loop body does not depend on the iteration, so its n pushes are n copies
of one set. Allocation failure is a fatal unwrap in the source, outside this
model. -/
def CanvasInner.recreate_buffers_exact (c : CanvasInner)
    (exact_extent : Nat × Nat × Nat) (num_frames_in_flight : Nat) : CanvasInner :=
  let set := c.image_create_infos.map
    (fun create_info => ImageView.mk { create_info with extent := exact_extent })
  { c with
      num_frames_in_flight := num_frames_in_flight
      image_sets := List.replicate num_frames_in_flight set
      framebuffers := List.replicate num_frames_in_flight ⟨c.renderpass, set⟩ }

/-- RenderPassController state as built by Canvas::pass_controller
(src/src/canvas/mod.rs lines 102-106); its recorder-facing operations are
modelled further below. -/
structure RenderPassController where
  current_subpass : Option Nat
  framebuffer : Framebuffer
  image_views : List ImageView
  deriving DecidableEq, Repr

/-- Canvas::pass_controller (src/src/canvas/mod.rs lines 89-99): advance the
rotation index to (current_set + 1) mod N and hand out a controller borrowing
the new current framebuffer and image set. The source's indexing panics when
out of range; on a built canvas (N sets and framebuffers present) the new
index is always in range and the default of the totalized lookup is never
hit. With N = 0 the source panics on the modulo, so claims restrict N >= 1. -/
def Canvas.pass_controller (c : CanvasInner) : CanvasInner × RenderPassController :=
  let cur := (c.current_set + 1) % c.num_frames_in_flight
  ({ c with current_set := cur },
    { current_subpass := none,
      framebuffer := c.framebuffers.getD cur ⟨0, []⟩,
      image_views := c.image_sets.getD cur [] })

/-- Canvas state after k successive pass_controller requests. -/
def rotateK (c : CanvasInner) : Nat → CanvasInner
  | 0 => c
  | k + 1 => (Canvas.pass_controller (rotateK c k)).1

theorem rotateK_frames (c : CanvasInner) :
    ∀ k, (rotateK c k).num_frames_in_flight = c.num_frames_in_flight := by
  intro k
  induction k with
  | zero => rfl
  | succ k ih => simp [rotateK, Canvas.pass_controller, ih]

/-- C3: canvas rotation is cyclic. From rotation index 0 with N >= 1 frames
in flight, after k pass_controller calls the rotation index is k mod N; in
particular after a rebuild with N = 2, three successive calls observe the
indices 1, 0, 1. -/
theorem pass_controller_cyclic :
    (∀ (c : CanvasInner) (k : Nat), c.current_set = 0 → 1 ≤ c.num_frames_in_flight →
      (rotateK c k).current_set = k % c.num_frames_in_flight) ∧
    (∀ (rp : Nat) (infos : List ImageCreateInfo),
      (rotateK ((Canvas.empty rp infos).recreate_buffers_exact (800, 600, 1) 2)
        1).current_set = 1 ∧
      (rotateK ((Canvas.empty rp infos).recreate_buffers_exact (800, 600, 1) 2)
        2).current_set = 0 ∧
      (rotateK ((Canvas.empty rp infos).recreate_buffers_exact (800, 600, 1) 2)
        3).current_set = 1) := by
  constructor
  · intro c k h0 hn
    induction k with
    | zero => simp [rotateK, h0]
    | succ k ih =>
      have hframes := rotateK_frames c k
      simp only [rotateK, Canvas.pass_controller, ih, hframes]
      rw [Nat.mod_add_mod]
  · intro rp infos
    refine ⟨?_, ?_, ?_⟩ <;>
      simp [rotateK, Canvas.pass_controller, CanvasInner.recreate_buffers_exact,
        Canvas.empty]

/-- Witness for pass_controller_cyclic at a concrete built canvas with N = 3
and five rotation requests. -/
theorem pass_controller_cyclic_witness :
    (rotateK ((Canvas.empty 0 []).recreate_buffers_exact (64, 64, 1) 3)
      5).current_set = 5 % 3 :=
  pass_controller_cyclic.1 ((Canvas.empty 0 []).recreate_buffers_exact (64, 64, 1) 3)
    5 rfl (by decide)

/-- C4: for every N >= 1, after a successful recreate_buffers_exact (the
attachment template must be nonempty for the framebuffer unwraps to succeed)
the canvas extent is exactly the requested width and height and exactly N
framebuffer objects and N image sets exist; before any build the extent is
[0,0]. -/
theorem recreate_buffers_exact_spec :
    (∀ (c : CanvasInner) (e : Nat × Nat × Nat) (n : Nat),
      1 ≤ n → c.image_create_infos ≠ [] →
      Canvas.extent (c.recreate_buffers_exact e n) = (e.1, e.2.1) ∧
      (c.recreate_buffers_exact e n).framebuffers.length = n ∧
      (c.recreate_buffers_exact e n).image_sets.length = n) ∧
    (∀ (rp : Nat) (infos : List ImageCreateInfo),
      Canvas.extent (Canvas.empty rp infos) = (0, 0)) := by
  constructor
  · intro c e n hn hne
    obtain ⟨a, as, ha⟩ := List.exists_cons_of_ne_nil hne
    match n, hn with
    | n + 1, _ =>
      refine ⟨?_, by simp [CanvasInner.recreate_buffers_exact],
        by simp [CanvasInner.recreate_buffers_exact]⟩
      simp [Canvas.extent, CanvasInner.recreate_buffers_exact, List.replicate_succ,
        ha, Framebuffer.extent]
  · intro rp infos
    rfl

/-- Witness for recreate_buffers_exact_spec at a concrete canvas with one
attachment, extent [800,600] and N = 2. -/
theorem recreate_buffers_exact_spec_witness :
    Canvas.extent ((Canvas.empty 0 [⟨(0, 0, 0), 7⟩]).recreate_buffers_exact
      (800, 600, 1) 2) = (800, 600) ∧
    ((Canvas.empty 0 [⟨(0, 0, 0), 7⟩]).recreate_buffers_exact
      (800, 600, 1) 2).framebuffers.length = 2 :=
  ⟨(recreate_buffers_exact_spec.1 (Canvas.empty 0 [⟨(0, 0, 0), 7⟩]) (800, 600, 1) 2
      (by decide) (by decide)).1,
    (recreate_buffers_exact_spec.1 (Canvas.empty 0 [⟨(0, 0, 0), 7⟩]) (800, 600, 1) 2
      (by decide) (by decide)).2.1⟩

/-- Three-valued continuation tag of the type-erasing adapter
(src/src/renderpass/mod.rs, `enum RenderPassType`). -/
inductive RenderPassType (PreT PostT : Type)
  | None
  | PreProcessed (data : PreT)
  | PostProcessed (data : PostT)
  deriving DecidableEq, Repr

/-- DynamicRenderPass adapter state (src/src/renderpass/mod.rs lines 73-76):
the continuation tag. The wrapped stage's phase implementations are supplied
to each call as explicit functions. -/
structure DynamicRenderPass (PreT PostT : Type) where
  data : RenderPassType PreT PostT
  deriving DecidableEq, Repr

/-- DynamicRenderPass::preprocess (src/src/renderpass/mod.rs lines 105-112):
run the wrapped stage's preprocess; on Ok overwrite the tag with
PreProcessed(data); on Halt propagate it, leaving the tag untouched. -/
def DynamicRenderPass.preprocess {P O : Type} (s : DynamicRenderPass P O)
    (inner : Except HaltPolicy P) : DynamicRenderPass P O × Except HaltPolicy Unit :=
  match inner with
  | .ok d => (⟨.PreProcessed d⟩, .ok ())
  | .error hp => (s, .error hp)

/-- DynamicRenderPass::build_commands (src/src/renderpass/mod.rs lines
114-132): take the tag (replacing it with None); if it was not PreProcessed
the adapter panics ("data not preprocessed"), modelled as `none`; otherwise
run the wrapped build with the taken data, storing PostProcessed(output) on
Ok and propagating Halt with the tag left at None. -/
def DynamicRenderPass.build_commands {P O : Type} (s : DynamicRenderPass P O)
    (inner : P → Except HaltPolicy O) :
    Option (DynamicRenderPass P O × Except HaltPolicy Unit) :=
  match s.data with
  | .PreProcessed d =>
    match inner d with
    | .ok o => some (⟨.PostProcessed o⟩, .ok ())
    | .error hp => some (⟨.None⟩, .error hp)
  | _ => none

/-- DynamicRenderPass::postprocess (src/src/renderpass/mod.rs lines 134-145):
take the tag (replacing it with None); if it was not PostProcessed the
adapter panics ("data not postprocessed"), modelled as `none`; otherwise run
the wrapped postprocess on the taken output. -/
def DynamicRenderPass.postprocess {P O : Type} (s : DynamicRenderPass P O)
    (inner : O → Unit) : Option (DynamicRenderPass P O) :=
  match s.data with
  | .PostProcessed d =>
    let _ := inner d
    some ⟨.None⟩
  | _ => none

/-- C5: the continuation adapter enforces phase order fatally: build_commands
panics unless the tag is PreProcessed (a successful preprocess this frame),
postprocess panics unless the tag is PostProcessed (a successful
build_commands), and after an in-order success the panic branch is
unreachable. -/
theorem adapter_phase_discipline :
    (∀ (P O : Type) (s : DynamicRenderPass P O) (inner : P → Except HaltPolicy O),
      (∀ d, s.data ≠ RenderPassType.PreProcessed d) →
      s.build_commands inner = none) ∧
    (∀ (P O : Type) (s : DynamicRenderPass P O) (inner : O → Unit),
      (∀ d, s.data ≠ RenderPassType.PostProcessed d) →
      s.postprocess inner = none) ∧
    (∀ (P O : Type) (s : DynamicRenderPass P O) (d : P)
      (innerB : P → Except HaltPolicy O),
      ((s.preprocess (Except.ok d)).1.build_commands innerB).isSome = true) ∧
    (∀ (P O : Type) (s : DynamicRenderPass P O) (d : P) (o : O)
      (innerB : P → Except HaltPolicy O) (innerPost : O → Unit),
      s.data = RenderPassType.PreProcessed d → innerB d = Except.ok o →
      s.build_commands innerB = some (⟨RenderPassType.PostProcessed o⟩, Except.ok ()) ∧
      ((⟨RenderPassType.PostProcessed o⟩ : DynamicRenderPass P O).postprocess
        innerPost).isSome = true) := by
  refine ⟨?_, ?_, ?_, ?_⟩
  · intro P O s inner h
    match hs : s.data with
    | .None => simp [DynamicRenderPass.build_commands, hs]
    | .PreProcessed d => exact absurd hs (h d)
    | .PostProcessed d => simp [DynamicRenderPass.build_commands, hs]
  · intro P O s inner h
    match hs : s.data with
    | .None => simp [DynamicRenderPass.postprocess, hs]
    | .PreProcessed d => simp [DynamicRenderPass.postprocess, hs]
    | .PostProcessed d => exact absurd hs (h d)
  · intro P O s d innerB
    simp only [DynamicRenderPass.preprocess, DynamicRenderPass.build_commands]
    cases innerB d <;> simp
  · intro P O s d o innerB innerPost hs hb
    constructor
    · simp [DynamicRenderPass.build_commands, hs, hb]
    · simp [DynamicRenderPass.postprocess]

/-- Witness for adapter_phase_discipline at concrete Nat-typed stages: a
fresh (Idle) adapter's build_commands panics; after a successful preprocess
it does not; an in-order build stores the output and postprocess succeeds. -/
theorem adapter_phase_discipline_witness :
    ((⟨RenderPassType.None⟩ : DynamicRenderPass Nat Nat).build_commands
      (fun d => Except.ok d) = none) ∧
    (((⟨RenderPassType.None⟩ : DynamicRenderPass Nat Nat).preprocess
        (Except.ok 5)).1.build_commands (fun d => Except.ok d)).isSome = true ∧
    ((⟨RenderPassType.PreProcessed 5⟩ : DynamicRenderPass Nat Nat).build_commands
        (fun d => Except.ok (d + 1)) =
      some (⟨RenderPassType.PostProcessed 6⟩, Except.ok ())) :=
  ⟨adapter_phase_discipline.1 Nat Nat ⟨RenderPassType.None⟩ (fun d => Except.ok d)
      (fun d h => nomatch h),
    adapter_phase_discipline.2.2.1 Nat Nat ⟨RenderPassType.None⟩ 5 (fun d => Except.ok d),
    (adapter_phase_discipline.2.2.2 Nat Nat ⟨RenderPassType.PreProcessed 5⟩ 5 6
      (fun d => Except.ok (d + 1)) (fun _ => ()) rfl rfl).1⟩

/-- Validation failure reported by the external recorder (vulkano's boxed
ValidationError), collapsed to its occurrence. -/
inductive ValidationError
  | invalidState
  deriving DecidableEq, Repr

/-- Modelled from the spec: the external command recorder (spec section 6,
vulkano's AutoCommandBufferBuilder — consumed by this repository, not
implemented in it). Only the render-pass bracketing state the controller
claims depend on is kept: the current subpass of the active render pass, if
any. Its begin/advance/end operations validate that state and report a
recoverable error, not a panic, when misused. -/
structure CmdBuffer where
  renderPassActive : Option Nat
  deriving DecidableEq, Repr

/-- Modelled from the spec: the recorder's begin-render-pass operation
(spec section 6). -/
def CmdBuffer.begin_render_pass (b : CmdBuffer) : Except ValidationError CmdBuffer :=
  match b.renderPassActive with
  | some _ => .error .invalidState
  | none => .ok ⟨some 0⟩

/-- Modelled from the spec: the recorder's advance-subpass operation
(spec section 6). -/
def CmdBuffer.next_subpass (b : CmdBuffer) : Except ValidationError CmdBuffer :=
  match b.renderPassActive with
  | some k => .ok ⟨some (k + 1)⟩
  | none => .error .invalidState

/-- Modelled from the spec: the recorder's end-render-pass operation
(spec section 6). -/
def CmdBuffer.end_render_pass (b : CmdBuffer) : Except ValidationError CmdBuffer :=
  match b.renderPassActive with
  | some _ => .ok ⟨none⟩
  | none => .error .invalidState

/-- RenderPassController::begin_renderpass (src/src/canvas/mod.rs lines
109-127): delegate to the recorder; on success set current_subpass to 0, on
error leave the controller unchanged and surface the error. Clear values and
the explicit sub-rectangle variant do not affect the state machine and are
abstracted away. -/
def RenderPassController.begin_renderpass (c : RenderPassController)
    (cmd_buf : CmdBuffer) : RenderPassController × Except ValidationError CmdBuffer :=
  match cmd_buf.begin_render_pass with
  | .ok val => ({ c with current_subpass := some 0 }, .ok val)
  | .error err => (c, .error err)

/-- RenderPassController::next_subpass (src/src/canvas/mod.rs lines 153-162):
`expect "renderpass not active"` on the controller's own state — a panic
(`none`) when no pass was begun — then increment the subpass counter and
advance the recorder. -/
def RenderPassController.next_subpass (c : RenderPassController)
    (cmd_buf : CmdBuffer) :
    Option (RenderPassController × Except ValidationError CmdBuffer) :=
  match c.current_subpass with
  | none => none
  | some k => some ({ c with current_subpass := some (k + 1) }, cmd_buf.next_subpass)

/-- RenderPassController::end_renderpass (src/src/canvas/mod.rs lines
164-169): consumes the controller (it takes self by value) and delegates
directly to the recorder without inspecting current_subpass; it has no panic
branch. The Option wrapper gives it the same panic-capable result shape as
next_subpass so the two can be compared; the `none` branch is never
produced. -/
def RenderPassController.end_renderpass (c : RenderPassController)
    (cmd_buf : CmdBuffer) : Option (Except ValidationError CmdBuffer) :=
  some cmd_buf.end_render_pass

/-- C6 counterexample: on a freshly created controller (NotStarted — no
beginPass succeeded) and a recorder with no active render pass,
end_renderpass does not halt the process: it returns normally, carrying the
recorder's recoverable validation error, so endPass does not fatally require
the Active state. -/
theorem end_renderpass_not_fatal :
    RenderPassController.end_renderpass ⟨none, ⟨0, []⟩, []⟩ ⟨none⟩ =
      some (Except.error ValidationError.invalidState) := rfl

/-- C6 amended: end_renderpass consumes the controller but performs no Active
check of its own — for every controller state it returns (never panics) the
recorder's end_render_pass result: a recoverable invalid-state error when no
render pass is active on the recorder, and the ended pass when one is
active. -/
theorem end_renderpass_delegates :
    (∀ (c : RenderPassController) (b : CmdBuffer),
      c.end_renderpass b = some b.end_render_pass) ∧
    (∀ (c : RenderPassController) (b : CmdBuffer), b.renderPassActive = none →
      c.end_renderpass b = some (Except.error ValidationError.invalidState)) ∧
    (∀ (c : RenderPassController) (b : CmdBuffer) (k : Nat),
      b.renderPassActive = some k →
      c.end_renderpass b = some (Except.ok ⟨none⟩)) := by
  refine ⟨fun c b => rfl, ?_, ?_⟩
  · intro c b hb
    simp [RenderPassController.end_renderpass, CmdBuffer.end_render_pass, hb]
  · intro c b k hb
    simp [RenderPassController.end_renderpass, CmdBuffer.end_render_pass, hb]

/-- Witness for end_renderpass_delegates on a NotStarted controller with an
idle recorder and on an Active controller with an in-pass recorder. -/
theorem end_renderpass_delegates_witness :
    (RenderPassController.end_renderpass ⟨none, ⟨0, []⟩, []⟩ ⟨none⟩ =
      some (Except.error ValidationError.invalidState)) ∧
    (RenderPassController.end_renderpass ⟨some 0, ⟨0, []⟩, []⟩ ⟨some 0⟩ =
      some (Except.ok ⟨none⟩)) :=
  ⟨end_renderpass_delegates.2.1 ⟨none, ⟨0, []⟩, []⟩ ⟨none⟩ rfl,
    end_renderpass_delegates.2.2 ⟨some 0, ⟨0, []⟩, []⟩ ⟨some 0⟩ 0 rfl⟩

/-- C7: next_subpass on a NotStarted controller (current_subpass none, no
successful beginPass) panics ("renderpass not active"); in the Active state
it increments the subpass counter by exactly one. -/
theorem next_subpass_spec :
    (∀ (c : RenderPassController) (b : CmdBuffer), c.current_subpass = none →
      c.next_subpass b = none) ∧
    (∀ (c : RenderPassController) (b : CmdBuffer) (k : Nat),
      c.current_subpass = some k →
      ∃ r, c.next_subpass b = some r ∧ r.1.current_subpass = some (k + 1)) := by
  constructor
  · intro c b hc
    simp [RenderPassController.next_subpass, hc]
  · intro c b k hc
    refine ⟨({ c with current_subpass := some (k + 1) }, b.next_subpass), ?_, rfl⟩
    simp [RenderPassController.next_subpass, hc]

/-- Witness for next_subpass_spec: a NotStarted controller panics; an Active
controller at subpass 0 moves to subpass 1. -/
theorem next_subpass_spec_witness :
    (RenderPassController.next_subpass ⟨none, ⟨0, []⟩, []⟩ ⟨none⟩ = none) ∧
    (∃ r, RenderPassController.next_subpass ⟨some 0, ⟨0, []⟩, []⟩ ⟨some 0⟩ = some r ∧
      r.1.current_subpass = some 1) :=
  ⟨next_subpass_spec.1 ⟨none, ⟨0, []⟩, []⟩ ⟨none⟩ rfl,
    next_subpass_spec.2 ⟨some 0, ⟨0, []⟩, []⟩ ⟨some 0⟩ 0 rfl⟩

/-- Outcome of the external acquire_next_image call for one frame (spec
section 6): the next image index plus the suboptimal flag, or OutOfDate. -/
inductive AcquireOutcome
  | acquired (image_index : Nat) (suboptimal : Bool)
  | outOfDate
  deriving DecidableEq, Repr

/-- WindowSurface state touched by PresentSystem::setup
(src/src/window_surface/mod.rs): the window's current inner size, the
swapchain recreation flag, the frame-in-flight count, and an abstract
swapchain generation bumped by each recreation. Fences, images and device
handles are outside the claims. -/
structure WindowSurface where
  inner_size : Nat × Nat
  recreate_swapchain : Bool
  num_frames_in_flight : Nat
  swapchain_generation : Nat
  deriving DecidableEq, Repr

/-- Per-frame shared snapshot published by PresentSystem::setup
(src/test/passes/present.rs, `struct SharedInfo`); the Arc window handle
carries identity, not state. -/
structure SharedInfo where
  num_frames_in_flight : Nat
  image_index : Nat
  image_extent : Nat × Nat
  deriving DecidableEq, Repr

/-- PresentSystem::setup (src/test/passes/present.rs lines 51-119), device
calls abstracted: Halt(HaltAll) when the window extent has a zero dimension
(the surface is left untouched); otherwise the swapchain is recreated if the
flag was set (bumping the generation, clearing the flag), then the next image
is acquired — OutOfDate sets the recreation flag and returns Halt(HaltAll); a
successful but suboptimal acquire also sets the flag; on success the snapshot
is published (a fresh recorder is also returned in the source; it carries no
state the claims need). The fence cleanup and the frame-count refresh from the
new swapchain's image list are device bookkeeping outside the model. -/
def PresentSystem.setup (w : WindowSurface) (acq : AcquireOutcome) :
    WindowSurface × Except HaltPolicy SharedInfo :=
  let image_extent := w.inner_size
  if image_extent.1 = 0 ∨ image_extent.2 = 0 then
    (w, .error HaltPolicy.HaltAll)
  else
    let w1 := if w.recreate_swapchain then
        { w with swapchain_generation := w.swapchain_generation + 1,
                 recreate_swapchain := false }
      else w
    match acq with
    | .outOfDate => ({ w1 with recreate_swapchain := true }, .error HaltPolicy.HaltAll)
    | .acquired image_index suboptimal =>
      let w2 := if suboptimal then { w1 with recreate_swapchain := true } else w1
      (w2, .ok { num_frames_in_flight := w2.num_frames_in_flight,
                 image_index := image_index, image_extent := image_extent })

/-- C8 counterexample: with a zero-width window and the recreation flag
clear, setup halts the frame but does not set the surface's recreation flag —
the next frame's setup will not recreate the swapchain because of it — so the
claim that both recoverable conditions set the flag is false on the
zero-extent path. -/
theorem setup_zero_extent_flag_not_set :
    (PresentSystem.setup ⟨(0, 600), false, 2, 0⟩ (AcquireOutcome.acquired 0 false)).2 =
        Except.error HaltPolicy.HaltAll ∧
      (PresentSystem.setup ⟨(0, 600), false, 2, 0⟩
        (AcquireOutcome.acquired 0 false)).1.recreate_swapchain = false :=
  ⟨rfl, rfl⟩

/-- C8 amended: both recoverable-this-frame conditions are signaled as Halt
so the frame is skipped, but only the out-of-date acquire sets the surface's
recreation flag before halting; the zero-extent path returns Halt with the
surface left exactly as it was (in particular the flag is not set). -/
theorem setup_halt_spec :
    (∀ (w : WindowSurface) (acq : AcquireOutcome),
      w.inner_size.1 = 0 ∨ w.inner_size.2 = 0 →
      PresentSystem.setup w acq = (w, Except.error HaltPolicy.HaltAll)) ∧
    (∀ w : WindowSurface, w.inner_size.1 ≠ 0 → w.inner_size.2 ≠ 0 →
      (PresentSystem.setup w AcquireOutcome.outOfDate).1.recreate_swapchain = true ∧
      (PresentSystem.setup w AcquireOutcome.outOfDate).2 =
        Except.error HaltPolicy.HaltAll) := by
  constructor
  · intro w acq hz
    simp [PresentSystem.setup, hz]
  · intro w h1 h2
    cases hr : w.recreate_swapchain <;>
      simp [PresentSystem.setup, h1, h2, hr]

/-- Witness for setup_halt_spec: a minimized window halts untouched, and an
out-of-date acquire on a healthy window halts with the flag set. -/
theorem setup_halt_spec_witness :
    (PresentSystem.setup ⟨(800, 0), true, 2, 0⟩ AcquireOutcome.outOfDate =
      (⟨(800, 0), true, 2, 0⟩, Except.error HaltPolicy.HaltAll)) ∧
    ((PresentSystem.setup ⟨(800, 600), false, 2, 0⟩
        AcquireOutcome.outOfDate).1.recreate_swapchain = true) :=
  ⟨setup_halt_spec.1 ⟨(800, 0), true, 2, 0⟩ AcquireOutcome.outOfDate (Or.inr rfl),
    (setup_halt_spec.2 ⟨(800, 600), false, 2, 0⟩ (by decide) (by decide)).1⟩

/-- Combined state of the render-thread hand-off and dispatcher
(src/src/lib.rs): the capacity-1 sync channel's buffer (at most one queued
job), the job the render-thread loop is currently executing, and the jobs
whose one-shot completion signal has been sent. Jobs are identified by
Nat ids. -/
structure DispatchState where
  buffer : Option Nat
  running : Option Nat
  completed : List Nat
  deriving DecidableEq, Repr

/-- Actions of the producer threads and the dispatcher loop. -/
inductive DLabel
  | send (j : Nat)
  | recvJob
  | finish
  deriving DecidableEq, Repr

/-- One transition of the hand-off/dispatcher system; `none` means the action
blocks (is not enabled) in this state. Modelled from src/src/lib.rs: `send j`
is RenderThreadComms::send depositing into the capacity-1 sync channel (it
blocks while the buffer is full); `recvJob` is the loop's recv (the
single-threaded loop only receives when idle between jobs); `finish` is the
loop completing rendergraph.run and sending the one-shot completion
signal. -/
def dstep (s : DispatchState) : DLabel → Option DispatchState
  | .send j =>
    match s.buffer with
    | none => some { s with buffer := some j }
    | some _ => none
  | .recvJob =>
    match s.buffer, s.running with
    | some j, none => some { s with buffer := none, running := some j }
    | _, _ => none
  | .finish =>
    match s.running with
    | some j => some { s with running := none, completed := j :: s.completed }
    | none => none

/-- Runs a sequence of actions; fails if any action blocks. -/
def drun (s : DispatchState) : List DLabel → Option DispatchState
  | [] => some s
  | l :: ls => (dstep s l).bind (fun s2 => drun s2 ls)

/-- Idle initial dispatcher state. -/
def dInit : DispatchState := ⟨none, none, []⟩

/-- C9 counterexample: from the idle state, the execution send(1), recv,
send(2) is fully enabled: the second send completes while job 1 is still
mid-execution and its completion signal has not been sent, so a second send
does not block until the first job's completion is signaled. -/
theorem second_send_before_completion :
    drun dInit [DLabel.send 1, DLabel.recvJob, DLabel.send 2] =
        some ⟨some 2, some 1, []⟩ ∧
      (1 ∈ (⟨some 2, some 1, []⟩ : DispatchState).completed) = False :=
  ⟨rfl, by simp⟩

/-- C9 amended: the hand-off has capacity 1 and backpressure means a send
blocks exactly while another job is queued in the buffer — it waits for the
dispatcher to dequeue, not for the prior job's completion signal: whenever
the buffer is empty and the dispatcher is idle, send(j1), recv, send(j2) all
complete with job j1 still mid-execution and uncompleted and j2 queued (at
most one job queued and one executing at any time). -/
theorem send_backpressure :
    (∀ (s : DispatchState) (j : Nat),
      (dstep s (DLabel.send j)).isSome = true ↔ s.buffer = none) ∧
    (∀ (s : DispatchState) (j1 j2 : Nat), s.buffer = none → s.running = none →
      j1 ∉ s.completed →
      drun s [DLabel.send j1, DLabel.recvJob, DLabel.send j2] =
          some ⟨some j2, some j1, s.completed⟩ ∧
        j1 ∉ (⟨some j2, some j1, s.completed⟩ : DispatchState).completed) := by
  constructor
  · intro s j
    cases hb : s.buffer <;> simp [dstep, hb]
  · intro s j1 j2 hb hr hc
    refine ⟨?_, hc⟩
    simp [drun, dstep, hb, hr]

/-- Witness for send_backpressure from the idle initial state with jobs 1
and 2. -/
theorem send_backpressure_witness :
    drun dInit [DLabel.send 1, DLabel.recvJob, DLabel.send 2] =
        some ⟨some 2, some 1, []⟩ ∧
      1 ∉ (⟨some 2, some 1, []⟩ : DispatchState).completed :=
  send_backpressure.2 dInit 1 2 rfl rfl (by decide)

/-- PresentBarrier (src/src/lib.rs lines 304-315): holds the one-shot
completion channel of the job it was returned for, or nothing once the wait
has consumed it. -/
structure PresentBarrier where
  reciever : Option Nat
  deriving DecidableEq, Repr

/-- PresentBarrier::blocking_wait (src/src/lib.rs lines 309-314), relative to
dispatcher state s: if the channel is still held, recv on it — which returns
only once the job's completion signal has been sent, so the call blocks
(`none`) until then — and drop the channel; if the channel was already
consumed, return immediately (no-op). -/
def PresentBarrier.blocking_wait (s : DispatchState) (b : PresentBarrier) :
    Option PresentBarrier :=
  match b.reciever with
  | none => some b
  | some j => if j ∈ s.completed then some ⟨none⟩ else none

/-- Drop for PresentBarrier (src/src/lib.rs lines 317-321): the destructor
body is exactly `self.blocking_wait()`. -/
def PresentBarrier.drop (s : DispatchState) (b : PresentBarrier) :
    Option PresentBarrier :=
  PresentBarrier.blocking_wait s b

/-- C10: dropping a never-waited PresentBarrier performs the same blocking
wait as an explicit blocking_wait: with the one-shot channel still held, the
drop cannot complete (code after the destruction cannot run) in any state
where the job's completion signal has not fired, and completes consuming the
channel once it has; after one wait the channel is gone and any further wait
returns immediately as a no-op. -/
theorem present_barrier_drop_waits :
    (∀ (s : DispatchState) (b : PresentBarrier),
      PresentBarrier.drop s b = PresentBarrier.blocking_wait s b) ∧
    (∀ (s : DispatchState) (j : Nat), j ∉ s.completed →
      PresentBarrier.drop s ⟨some j⟩ = none) ∧
    (∀ (s : DispatchState) (j : Nat), j ∈ s.completed →
      PresentBarrier.drop s ⟨some j⟩ = some ⟨none⟩) ∧
    (∀ s : DispatchState, PresentBarrier.blocking_wait s ⟨none⟩ = some ⟨none⟩) := by
  refine ⟨fun s b => rfl, ?_, ?_, fun s => rfl⟩
  · intro s j hj
    simp [PresentBarrier.drop, PresentBarrier.blocking_wait, hj]
  · intro s j hj
    simp [PresentBarrier.drop, PresentBarrier.blocking_wait, hj]

/-- Witness for present_barrier_drop_waits: dropping the barrier for job 1
blocks while 1 is uncompleted and completes once 1's signal fired. -/
theorem present_barrier_drop_waits_witness :
    (PresentBarrier.drop dInit ⟨some 1⟩ = none) ∧
    (PresentBarrier.drop ⟨none, none, [1]⟩ ⟨some 1⟩ = some ⟨none⟩) :=
  ⟨present_barrier_drop_waits.2.1 dInit 1 (by simp [dInit]),
    present_barrier_drop_waits.2.2.1 ⟨none, none, [1]⟩ 1 (by simp)⟩

end Aspen
